import Mathlib

/-!
Verification development for the PHIVOLCS earthquake-data scraper
(`scrape_phivolcs.py`).  The HTML/network layer is abstracted: a fetched
document is modelled as the list of tables that `pandas.read_html` would
return (each already missing its first, decorative row), and an HTTP
request outcome is a classified value.  Everything downstream — table
selection, schema reconciliation, row filtering, the month/year
orchestration state machine and the numeric cleaning/partitioning — is
embedded directly from the source.
-/

namespace Phivolcs

/-- A table cell as produced by `pandas.read_html`: `none` models NaN. -/
abbrev Cell := Option String

/-- `astype(str)` on a cell: pandas renders NaN as the string "nan". -/
def cellStr : Cell → String
  | none => "nan"
  | some s => s

/-- Positional cell access on a row; out-of-range reads as NaN (pandas
tables are rectangular, so in-range in practice). -/
def getCell (r : List Cell) (i : Nat) : Cell := r.getD i none

/-- `needle` occurs as a contiguous run inside `hay`. -/
def containsSeq (needle hay : List Char) : Bool :=
  hay.tails.any (fun t => needle.isPrefixOf t)

/-- ASCII lower-casing of a character list (Python `str.lower` on the
characters that occur here). -/
def lowerList (cs : List Char) : List Char := cs.map Char.toLower

/-- Strip leading and trailing whitespace (Python `str.strip`). -/
def trimList (cs : List Char) : List Char :=
  ((cs.dropWhile Char.isWhitespace).reverse.dropWhile Char.isWhitespace).reverse

/-- Case-insensitive substring test, modelling
`Series.str.contains(pat, case=False)` for a literal (wildcard-free)
pattern fragment. -/
def containsCI (hay pat : String) : Bool :=
  containsSeq (lowerList pat.toList) (lowerList hay.toList)

/-- One match attempt, at the head of the list, of the regex fragment
`no. of events` (the dot is the regex any-character wildcard). -/
def noDotOfEventsAt : List Char → Bool
  | 'n' :: 'o' :: _ :: rest => (" of events".toList).isPrefixOf rest
  | _ => false

/-- The regex fragment `no. of events` matches somewhere in the list. -/
def noDotOfEvents (cs : List Char) : Bool :=
  cs.tails.any noDotOfEventsAt

/-- Header-row mask: the `Date-Time`, `Latitude` or `Longitude` cell
contains a header-indicator substring, case-insensitively
(`str.contains('Date|Time|Philippine', case=False)` etc.). -/
def headerMask (r : List Cell) : Bool :=
  let dt := cellStr (getCell r 0)
  let la := cellStr (getCell r 1)
  let lo := cellStr (getCell r 2)
  (containsCI dt "Date" || containsCI dt "Time" || containsCI dt "Philippine") ||
  (containsCI la "Latitude" || containsCI la "ºN" || containsCI la "°N") ||
  (containsCI lo "Longitude" || containsCI lo "ºE" || containsCI lo "°E")

/-- Summary-row mask: the first cell, stripped and lower-cased, matches
the regex `total|no. of events` (`first_col.str.lower().str.contains(...,
regex=True)`); note the `.` is the regex wildcard. -/
def summaryMask (r : List Cell) : Bool :=
  let t := lowerList (trimList (cellStr (getCell r 0)).toList)
  containsSeq "total".toList t || noDotOfEvents t

/-- Month-abbreviation mask: the first cell, stripped, fully matches
`^[A-Z][a-z]{2}-\d{2}$` (`first_col.str.match(...)`). -/
def monthAbbrevMask (r : List Cell) : Bool :=
  match trimList (cellStr (getCell r 0)).toList with
  | [a, b, c, d, e, f] =>
      a.isUpper && b.isLower && c.isLower && (d == '-') && e.isDigit && f.isDigit
  | _ => false

/-- All cells of the row are NaN (`dropna(how='all')`). -/
def emptyRow (r : List Cell) : Bool := r.all (fun c => c.isNone)

/-- The sequential row-filtering stage of the scraper: header mask first,
then (only when some rows survived) the summary and month-abbreviation
masks, then the all-NaN drop. -/
def filterRows (rows : List (List Cell)) : List (List Cell) :=
  let r1 := rows.filter (fun r => !headerMask r)
  let r2 := if r1.isEmpty then r1
            else r1.filter (fun r => !(summaryMask r || monthAbbrevMask r))
  r2.filter (fun r => !emptyRow r)

/-- A row survives every drop predicate (one-pass form of the filters). -/
def keepRow (r : List Cell) : Bool :=
  !headerMask r && !(summaryMask r || monthAbbrevMask r) && !emptyRow r

/-- One parsed HTML table: its column count (`shape[1]`) and its grid of
cells (first decorative row already skipped by `read_html(skiprows=1)`). -/
structure RawTable where
  ncols : Nat
  rows : List (List Cell)
deriving DecidableEq

/-- A normalized record: the six schema columns plus the `Month` and
`Year` metadata columns attached after filtering. -/
structure Record where
  dateTime : Cell
  latitude : Cell
  longitude : Cell
  depth : Cell
  magnitude : Cell
  location : Cell
  month : String
  year : Nat
deriving DecidableEq

/-- Positional schema assignment
`[Date-Time, Latitude, Longitude, Depth, Magnitude, Location]` on one
row, plus the caller-supplied metadata. -/
def mkRecord (m : String) (y : Nat) (r : List Cell) : Record :=
  ⟨getCell r 0, getCell r 1, getCell r 2, getCell r 3, getCell r 4,
   getCell r 5, m, y⟩

/-- Filter the rows of the selected table and attach metadata. -/
def processRows (rows : List (List Cell)) (m : String) (y : Nat) :
    List Record :=
  (filterRows rows).map (mkRecord m y)

/-- The rows the row-filtering stage actually sees: the original grid,
truncated to the first six columns when the table is wider
(`df.iloc[:, :6]`). -/
def effRows (t : RawTable) : List (List Cell) :=
  if 6 < t.ncols then t.rows.map (fun r => r.take 6) else t.rows

/-- The table-normalization core shared by both scrape functions: pick
the first table with at least 5 columns, fail on `None`/empty, reconcile
the column count against the 6-column schema, filter rows, attach
metadata.  `none` models the Python `return None` (Empty). -/
def normalizeDoc (tables : List RawTable) (m : String) (y : Nat) :
    Option (List Record) :=
  match tables.find? (fun t => decide (5 ≤ t.ncols)) with
  | none => none
  | some t =>
      if t.rows.isEmpty then none
      else if t.ncols = 6 then some (processRows t.rows m y)
      else if 6 < t.ncols then
        some (processRows (t.rows.map (fun r => r.take 6)) m y)
      else none

/-- Outcome of one HTTP GET: a 2xx body already parsed into its tables,
an HTTP status error raised by `raise_for_status`, or any other caught
exception (connection error, timeout, parse failure, ...). -/
inductive FetchOutcome where
  | success (tables : List RawTable)
  | httpError (status : Nat)
  | netError
deriving DecidableEq

/-- The external world one year-scrape runs against: the outcome of each
monthly-archive GET (keyed by month name), the outcome of the front-page
GET, and the system clock's current month name and year
(`datetime.now()`). -/
structure Env where
  monthly : String → FetchOutcome
  mainPage : FetchOutcome
  curMonth : String
  curYear : Nat

/-- `scrape_current_month_from_main_page`: fetch the front page, run the
normalization core on it, and label every surviving row with the *system
clock's* current month name and year.  Any error gives `None`. -/
def scrape_current_month_from_main_page (e : Env) : Option (List Record) :=
  match e.mainPage with
  | .success tables => normalizeDoc tables e.curMonth e.curYear
  | _ => none

/-- `scrape_phivolcs_data_from_html`: fetch the monthly archive page and
normalize it; on HTTP 404 fall back to the front-page scrape; on any
other HTTP error or any other exception return `None`. -/
def scrape_phivolcs_data_from_html (e : Env) (year : Nat) (monthName : String) :
    Option (List Record) :=
  match e.monthly monthName with
  | .success tables => normalizeDoc tables monthName year
  | .httpError s => if s = 404 then scrape_current_month_from_main_page e else none
  | .netError => none

/-- `df is not None and not df.empty`. -/
def dfNonempty : Option (List Record) → Bool
  | some (_ :: _) => true
  | _ => false

/-- Loop state of `scrape_year_data`'s month loop. -/
structure YearRun where
  allData : List (List Record)
  successful : List String
  failed : List String
  currentMonthFound : Bool
deriving DecidableEq

/-- The body of the month loop once the (possibly fallback) scrape result
`df` is in hand: append to the year's data and mark the month successful
when non-empty (detecting the current month), otherwise mark it failed
(and, on the current calendar year, assume the current month was hit). -/
def stepWith (e : Env) (year : Nat) (df : Option (List Record))
    (st : YearRun) (m : String) : YearRun :=
  match df with
  | some (r :: rs) =>
      { st with
        allData := st.allData ++ [r :: rs],
        successful := st.successful ++ [m],
        currentMonthFound :=
          if year = e.curYear ∧ m = e.curMonth then true
          else st.currentMonthFound }
  | _ =>
      { st with
        failed := st.failed ++ [m],
        currentMonthFound :=
          if year = e.curYear ∧ st.currentMonthFound = false then true
          else st.currentMonthFound }

/-- One iteration of the month loop: skip (marking the month failed)
once the current month has been found, otherwise fetch and process. -/
def stepMonth (e : Env) (year : Nat) (st : YearRun) (m : String) : YearRun :=
  if st.currentMonthFound then { st with failed := st.failed ++ [m] }
  else stepWith e year (scrape_phivolcs_data_from_html e year m) st m

/-- The twelve month names iterated by `scrape_year_data`. -/
def MONTH_NAMES : List String :=
  ["January", "February", "March", "April", "May", "June",
   "July", "August", "September", "October", "November", "December"]

/-- Run the month loop of `scrape_year_data` over the twelve months. -/
def runYearMonths (e : Env) (year : Nat) : YearRun :=
  MONTH_NAMES.foldl (stepMonth e year) ⟨[], [], [], false⟩

/-- Decimal-digit run to a natural number. -/
def digitsToNat (cs : List Char) : Nat :=
  cs.foldl (fun a c => a * 10 + (c.toNat - 48)) 0

/-- Unsigned decimal literal, with an optional single point
(`14`, `14.5`, `14.`, `.5`). -/
def parseRatCore (cs : List Char) : Option ℚ :=
  match cs.splitOn '.' with
  | [ip] =>
      if !ip.isEmpty && ip.all Char.isDigit then some (mkRat (digitsToNat ip) 1)
      else none
  | [ip, fp] =>
      if !(ip.isEmpty && fp.isEmpty) && (ip ++ fp).all Char.isDigit then
        some (mkRat (digitsToNat (ip ++ fp)) (10 ^ fp.length))
      else none
  | _ => none

/-- Model of `pd.to_numeric(..., errors='coerce')` on one cell rendered
as text: signed decimal literals parse, anything else coerces to NaN
(`none`). -/
def parseRat (s : String) : Option ℚ :=
  match trimList s.toList with
  | [] => none
  | '-' :: rest => (parseRatCore rest).map (fun q => -q)
  | '+' :: rest => parseRatCore rest
  | cs => parseRatCore cs

/-- Numeric coercion of one cell: NaN stays NaN, text parses or coerces
to NaN. -/
def toNumeric (c : Cell) : Option ℚ := c.bind parseRat

/-- A record after cleaning steps 1–3: column labels lower-cased and the
four numeric columns coerced (`none` = NaN). -/
structure CleanRecord where
  datetime : Cell
  latitude : Option ℚ
  longitude : Option ℚ
  depth : Option ℚ
  magnitude : Option ℚ
  location : Cell
  month : String
  year : Nat
deriving DecidableEq

/-- Steps 1–3 of the cleaning stage on one record: lower-case the labels
(a pure renaming in this record model) and run `pd.to_numeric` with
coercion over `latitude`, `longitude`, `depth`, `magnitude`. -/
def coerceRecord (r : Record) : CleanRecord :=
  ⟨r.dateTime, toNumeric r.latitude, toNumeric r.longitude,
   toNumeric r.depth, toNumeric r.magnitude, r.location, r.month, r.year⟩

/-- `nan_mask`: some required numeric field is missing. -/
def nanRow (r : CleanRecord) : Bool :=
  r.latitude.isNone || r.longitude.isNone || r.depth.isNone || r.magnitude.isNone

/-- `null_island_mask`: `latitude == 0 & longitude == 0`. -/
def nullIsland (r : CleanRecord) : Bool :=
  (r.latitude == some 0) && (r.longitude == some 0)

/-- Result of the row-removal stage of cleaning. -/
structure CleanResult where
  valid : List CleanRecord
  removedNan : List CleanRecord
  removedNullIsland : List CleanRecord
deriving DecidableEq

/-- Cleaning steps 4–5 (`scrape_year_data` lines 247–259): record and
drop the rows with a missing numeric field, then — among the rows that
survived — record and drop the Null-Island rows. -/
def clean (rows : List CleanRecord) : CleanResult :=
  let removedNan := rows.filter nanRow
  let kept := rows.filter (fun r => !nanRow r)
  let removedNI := kept.filter (fun r => !nanRow r && nullIsland r)
  let valid := kept.filter (fun r => !nullIsland r)
  ⟨valid, removedNan, removedNI⟩

/-- The whole cleaning stage on the year's concatenated records. -/
def cleanYear (recs : List Record) : CleanResult :=
  clean (recs.map coerceRecord)

/-- Observable outcome of `scrape_year_data`: whether the per-year CSV
file was written, and the returned cleaned dataset (`none` models the
Python `return None`). -/
structure YearOutcome where
  fileWritten : Bool
  output : Option (List CleanRecord)
deriving DecidableEq

/-- `scrape_year_data`: run the month loop; when at least one month
produced data, concatenate, clean, write the per-year CSV
(unconditionally inside that branch) and return the cleaned frame;
otherwise write nothing and return `None`. -/
def scrape_year_data (e : Env) (year : Nat) : YearOutcome :=
  let st := runYearMonths e year
  if st.allData.isEmpty then ⟨false, none⟩
  else ⟨true, some (cleanYear st.allData.flatten).valid⟩

/-- The summary-row predicate read literally off the specification text:
the trimmed, lower-cased first cell contains the *literal* substring
"total" or "no. of events" (no regex wildcard). -/
def literalSummaryMask (r : List Cell) : Bool :=
  let t := lowerList (trimList (cellStr (getCell r 0)).toList)
  containsSeq "total".toList t || containsSeq "no. of events".toList t

/-- Keep predicate as the specification states it: match none of the
four drop predicates, with the summary predicate read literally. -/
def claimKeepLiteral (r : List Cell) : Bool :=
  !headerMask r && !(literalSummaryMask r || monthAbbrevMask r) && !emptyRow r

/-- A well-formed data row. -/
def rowGood : List Cell :=
  [some "Jan 1, 2024 - 03:00 AM", some "14.5", some "121.0",
   some "10", some "4.2", some "Quezon City"]

/-- A repeated-header row. -/
def rowHeader : List Cell :=
  [some "Date-Time", some "Latitude", some "Longitude",
   some "Depth", some "Magnitude", some "Location"]

/-- A month-abbreviation separator row. -/
def rowMonthAbbrev : List Cell :=
  [some "Jan-24", none, none, none, none, none]

/-- A row whose first cell matches the regex fragment `no. of events`
(the dot matching '?') but not the literal text "no. of events". -/
def rowBadB : List Cell :=
  [some "no? of events", some "1", some "2", some "3", some "4", some "loc"]

/-- A data row at the Null-Island placeholder coordinates. -/
def rowNull : List Cell :=
  [some "Jan 1, 2023 - 01:00 AM", some "0", some "0",
   some "10", some "4.2", some "Philippine Sea"]

/-- A row with a non-numeric (dashed-out) magnitude. -/
def rowDash : List Cell :=
  [some "Jan 2, 2023 - 01:00 AM", some "10.1", some "122.0",
   some "33", some "---", some "Leyte"]

/-- Six-column tables over the fixture rows. -/
def tGood : RawTable := ⟨6, [rowGood]⟩

def tHeaderGood : RawTable := ⟨6, [rowHeader, rowGood, rowMonthAbbrev]⟩

def tBadB : RawTable := ⟨6, [rowGood, rowBadB]⟩

def tNull : RawTable := ⟨6, [rowNull]⟩

def tNarrow : RawTable := ⟨2, [[some "a", some "b"]]⟩

/-- Fixture records over the fixture rows. -/
def recGood : Record := mkRecord "January" 2024 rowGood

def recNull : Record := mkRecord "January" 2023 rowNull

def recDash : Record := mkRecord "January" 2023 rowDash

/-- A small mixed batch of coerced records for the cleaning witnesses. -/
def cleanRowsFix : List CleanRecord :=
  [recGood, recNull, recDash].map coerceRecord

/-- Environment for the C8 counterexample: January's archive 404s while
scraping a past year (2023 against a 2024 clock); the front page has
data; February's archive is fine. -/
def envC8 : Env :=
  ⟨fun m => if m = "January" then .httpError 404
            else if m = "February" then .success [tGood]
            else .httpError 500,
   .success [tGood], "October", 2024⟩

/-- Environment for the C9 counterexample: the only successful month
yields a single Null-Island row, so cleaning removes every record. -/
def envC9 : Env :=
  ⟨fun m => if m = "January" then .success [tNull] else .httpError 500,
   .netError, "October", 2024⟩

/-- Environment for the C7 and C10 witnesses: March's archive 404s,
April's GET times out, May's archive returns HTTP 500, and the front
page has one record. -/
def envMixed : Env :=
  ⟨fun m => if m = "March" then .httpError 404
            else if m = "April" then .netError
            else .httpError 500,
   .success [tGood], "October", 2024⟩

/-! ### Shared lemmas -/

/-- The scraper's staged row filtering collapses to one pass of the
combined keep predicate, in document order. -/
theorem filterRows_eq_filter_keepRow (rows : List (List Cell)) :
    filterRows rows = rows.filter keepRow := by
  unfold filterRows
  by_cases h : (rows.filter (fun r => !headerMask r)).isEmpty
  · have h0 : rows.filter (fun r => !headerMask r) = [] := List.isEmpty_iff.mp h
    simp only [h, if_pos, h0, List.filter_nil]
    have : rows.filter keepRow = [] := by
      refine List.filter_eq_nil_iff.mpr (fun a ha => ?_)
      have hp := List.filter_eq_nil_iff.mp h0 a ha
      unfold keepRow
      simp only [Bool.and_eq_true, not_and]
      intro hh
      exact absurd hh.1 hp
    exact this.symm
  · simp only [h, if_neg, Bool.not_eq_true]
    rw [List.filter_filter, List.filter_filter]
    refine List.filter_congr (fun a _ => ?_)
    unfold keepRow
    cases headerMask a <;> cases summaryMask a <;> cases monthAbbrevMask a <;>
      cases emptyRow a <;> rfl

/-- On a singleton document whose table is wide enough and non-empty,
the normalizer runs the row filter on the (possibly truncated) grid. -/
theorem normalizeDoc_single (t : RawTable) (m : String) (y : Nat)
    (h6 : 6 ≤ t.ncols) (hne : t.rows ≠ []) :
    normalizeDoc [t] m y =
      some (((effRows t).filter keepRow).map (mkRecord m y)) := by
  have h5 : 5 ≤ t.ncols := by omega
  have hfind : [t].find? (fun u => decide (5 ≤ u.ncols)) = some t :=
    List.find?_cons_of_pos _ (decide_eq_true h5)
  have hemp : t.rows.isEmpty = false := by
    cases hr : t.rows with
    | nil => exact absurd hr hne
    | cons a as => simp [hr]
  unfold normalizeDoc
  rw [hfind]
  simp only [hemp, Bool.false_eq_true, if_false]
  rcases Nat.lt_or_ge 6 t.ncols with hgt | hle
  · have hne6 : ¬t.ncols = 6 := by omega
    simp only [hne6, if_false, hgt, if_true]
    unfold processRows effRows
    rw [filterRows_eq_filter_keepRow]
    simp [hgt]
  · have heq : t.ncols = 6 := by omega
    simp only [heq, if_true]
    unfold processRows effRows
    rw [filterRows_eq_filter_keepRow]
    have : ¬ (6 : Nat) < 6 := by omega
    simp [heq]

/-- Every record the normalizer emits carries the caller-supplied
`Month` and `Year` metadata. -/
theorem normalizeDoc_month_year (tables : List RawTable) (m : String)
    (y : Nat) (l : List Record) (h : normalizeDoc tables m y = some l) :
    ∀ r ∈ l, r.month = m ∧ r.year = y := by
  intro r hr
  unfold normalizeDoc at h
  cases hf : tables.find? (fun u => decide (5 ≤ u.ncols)) with
  | none => rw [hf] at h; exact absurd h (by simp)
  | some t =>
      rw [hf] at h
      have hl : ∃ rows, l = processRows rows m y := by
        by_cases he : t.rows.isEmpty
        · simp [he] at h
        · simp only [he, Bool.false_eq_true, if_false] at h
          by_cases h6 : t.ncols = 6
          · simp only [h6, if_true] at h
            exact ⟨t.rows, (Option.some_injective _ h).symm⟩
          · simp only [h6, if_false] at h
            by_cases hgt : 6 < t.ncols
            · simp only [hgt, if_true] at h
              exact ⟨t.rows.map (fun r => r.take 6),
                     (Option.some_injective _ h).symm⟩
            · simp [hgt] at h
      obtain ⟨rows, rfl⟩ := hl
      obtain ⟨a, _, rfl⟩ := List.mem_map.mp hr
      exact ⟨rfl, rfl⟩

theorem clean_valid (rows : List CleanRecord) :
    (clean rows).valid =
      (rows.filter (fun r => !nanRow r)).filter (fun r => !nullIsland r) := rfl

theorem clean_removedNan (rows : List CleanRecord) :
    (clean rows).removedNan = rows.filter nanRow := rfl

theorem clean_removedNI (rows : List CleanRecord) :
    (clean rows).removedNullIsland =
      (rows.filter (fun r => !nanRow r)).filter
        (fun r => !nanRow r && nullIsland r) := rfl

theorem isSome_of_isNone_false {α : Type} (o : Option α)
    (h : o.isNone = false) : o.isSome = true := by
  cases o <;> simp_all

/-! ### C1 -/

/-- C1: every record in the valid set the Cleaner returns has all four
numeric fields (latitude, longitude, depth, magnitude) non-null, and is
not at `(latitude, longitude) = (0, 0)`. -/
theorem c1_valid_invariant (recs : List Record) (r : CleanRecord)
    (hr : r ∈ (cleanYear recs).valid) :
    (r.latitude.isSome = true ∧ r.longitude.isSome = true ∧
     r.depth.isSome = true ∧ r.magnitude.isSome = true) ∧
    ¬(r.latitude = some 0 ∧ r.longitude = some 0) := by
  unfold cleanYear at hr
  rw [clean_valid] at hr
  have h1 := List.mem_filter.mp hr
  have h2 := List.mem_filter.mp h1.1
  have hnan : nanRow r = false := by simpa using h2.2
  have hni : nullIsland r = false := by simpa using h1.2
  unfold nanRow at hnan
  simp only [Bool.or_eq_false_iff] at hnan
  refine ⟨⟨isSome_of_isNone_false _ hnan.1.1.1, isSome_of_isNone_false _ hnan.1.1.2,
           isSome_of_isNone_false _ hnan.1.2, isSome_of_isNone_false _ hnan.2⟩, ?_⟩
  rintro ⟨hla, hlo⟩
  unfold nullIsland at hni
  rw [hla, hlo] at hni
  simp at hni

/-- C1 witness: the cleaned good fixture record satisfies the invariant. -/
theorem c1_witness :
    ((coerceRecord recGood).latitude.isSome = true ∧
     (coerceRecord recGood).longitude.isSome = true ∧
     (coerceRecord recGood).depth.isSome = true ∧
     (coerceRecord recGood).magnitude.isSome = true) ∧
    ¬((coerceRecord recGood).latitude = some 0 ∧
      (coerceRecord recGood).longitude = some 0) :=
  c1_valid_invariant [recGood] (coerceRecord recGood) (by decide)

/-! ### C5 -/

/-- C5: the missing-data and Null-Island removal sets are disjoint, and
together with the valid set they are a permutation of the cleaner's
input rows. -/
theorem c5_partition (rows : List CleanRecord) :
    (∀ r ∈ (clean rows).removedNan, r ∉ (clean rows).removedNullIsland) ∧
    List.Perm
      ((clean rows).removedNan ++ (clean rows).removedNullIsland ++
        (clean rows).valid) rows := by
  constructor
  · intro r hrn hri
    rw [clean_removedNan] at hrn
    rw [clean_removedNI] at hri
    have h1 : nanRow r = true := (List.mem_filter.mp hrn).2
    have h2 := List.mem_filter.mp (List.mem_filter.mp hri).1
    simp [h1] at h2
  · rw [clean_removedNan, clean_removedNI, clean_valid]
    have hNI : (rows.filter (fun r => !nanRow r)).filter
        (fun r => !nanRow r && nullIsland r) =
        (rows.filter (fun r => !nanRow r)).filter nullIsland := by
      refine List.filter_congr (fun a ha => ?_)
      have h := (List.mem_filter.mp ha).2
      rw [h, Bool.true_and]
    rw [hNI, List.append_assoc]
    have hk : List.Perm
        ((rows.filter (fun r => !nanRow r)).filter nullIsland ++
         (rows.filter (fun r => !nanRow r)).filter (fun r => !nullIsland r))
        (rows.filter (fun r => !nanRow r)) := List.filter_append_perm _ _
    exact (List.Perm.append_left _ hk).trans (List.filter_append_perm _ _)

/-- C5 witness: the partition property at a concrete mixed batch. -/
theorem c5_witness :
    (∀ r ∈ (clean cleanRowsFix).removedNan,
        r ∉ (clean cleanRowsFix).removedNullIsland) ∧
    List.Perm
      ((clean cleanRowsFix).removedNan ++
        (clean cleanRowsFix).removedNullIsland ++
        (clean cleanRowsFix).valid) cleanRowsFix :=
  c5_partition cleanRowsFix

/-! ### C6 -/

/-- C6: cleaning is idempotent on its valid output — re-cleaning the
valid set returns it whole, with both removal sets empty. -/
theorem c6_idempotent (rows : List CleanRecord) :
    clean ((clean rows).valid) = ⟨(clean rows).valid, [], []⟩ := by
  have hv : ∀ r ∈ (clean rows).valid, nanRow r = false ∧ nullIsland r = false := by
    intro r hr
    rw [clean_valid] at hr
    have h1 := List.mem_filter.mp hr
    have h2 := List.mem_filter.mp h1.1
    exact ⟨by simpa using h2.2, by simpa using h1.2⟩
  have h1 : ((clean rows).valid).filter nanRow = [] :=
    List.filter_eq_nil_iff.mpr (fun a ha => by simp [(hv a ha).1])
  have h2 : ((clean rows).valid).filter (fun r => !nanRow r) = (clean rows).valid :=
    List.filter_eq_self.mpr (fun a ha => by simp [(hv a ha).1])
  have h3 : ((clean rows).valid).filter (fun r => !nullIsland r) = (clean rows).valid :=
    List.filter_eq_self.mpr (fun a ha => by simp [(hv a ha).2])
  have h4 : ((clean rows).valid).filter (fun r => !nanRow r && nullIsland r) = [] :=
    List.filter_eq_nil_iff.mpr (fun a ha => by simp [(hv a ha).2])
  have e1 : (clean ((clean rows).valid)).valid = (clean rows).valid := by
    rw [clean_valid, h2, h3]
  have e2 : (clean ((clean rows).valid)).removedNan = [] := by
    rw [clean_removedNan, h1]
  have e3 : (clean ((clean rows).valid)).removedNullIsland = [] := by
    rw [clean_removedNI, h2, h4]
  calc clean ((clean rows).valid)
      = ⟨(clean ((clean rows).valid)).valid,
         (clean ((clean rows).valid)).removedNan,
         (clean ((clean rows).valid)).removedNullIsland⟩ := rfl
    _ = ⟨(clean rows).valid, [], []⟩ := by rw [e1, e2, e3]

/-- C6 witness: idempotence at a concrete mixed batch. -/
theorem c6_witness :
    clean ((clean cleanRowsFix).valid) = ⟨(clean cleanRowsFix).valid, [], []⟩ :=
  c6_idempotent cleanRowsFix

/-! ### C2 -/

/-- C2 counterexample: a row whose first cell is "no? of events" is
dropped by the code (the dot in the `no. of events` pattern is a regex
wildcard) although it matches none of the four predicates as the claim
states them literally, so the output is not the literal-predicate
filtering of the input rows. -/
theorem c2_counterexample :
    normalizeDoc [tBadB] "January" 2024 ≠
      some (((effRows tBadB).filter claimKeepLiteral).map
        (mkRecord "January" 2024)) := by decide

/-- C2 (amended): a table reaching the row-filtering stage yields
exactly the rows matching none of the four drop predicates — with the
summary predicate (b) read as the regex it is: first cell contains
"total" or matches «"no", any one character, " of events"» — in their
original document order. -/
theorem c2_row_filtering (t : RawTable) (m : String) (y : Nat)
    (h6 : 6 ≤ t.ncols) (hne : t.rows ≠ []) :
    normalizeDoc [t] m y =
      some (((effRows t).filter
        (fun r => !headerMask r && !summaryMask r && !monthAbbrevMask r &&
          !emptyRow r)).map (mkRecord m y)) := by
  rw [normalizeDoc_single t m y h6 hne]
  have hfil : (effRows t).filter keepRow =
      (effRows t).filter
        (fun r => !headerMask r && !summaryMask r && !monthAbbrevMask r &&
          !emptyRow r) := by
    refine List.filter_congr (fun a _ => ?_)
    unfold keepRow
    cases headerMask a <;> cases summaryMask a <;> cases monthAbbrevMask a <;>
      cases emptyRow a <;> rfl
  rw [hfil]

/-- C2 witness: the amended filtering law at a concrete table holding a
header row, a data row and a month-abbreviation row. -/
theorem c2_witness :
    normalizeDoc [tHeaderGood] "January" 2024 =
      some (((effRows tHeaderGood).filter
        (fun r => !headerMask r && !summaryMask r && !monthAbbrevMask r &&
          !emptyRow r)).map (mkRecord "January" 2024)) :=
  c2_row_filtering tHeaderGood "January" 2024 (by decide) (by decide)

/-! ### C3 -/

/-- C3: a selected non-empty table with exactly 6 columns gets the
schema positionally; with more than 6 it is truncated to the first 6
then processed the same way; with fewer than 6 the normalizer returns
Empty (no padding). -/
theorem c3_column_reconciliation (t : RawTable) (m : String) (y : Nat)
    (h5 : 5 ≤ t.ncols) :
    (t.ncols = 6 → t.rows ≠ [] →
      normalizeDoc [t] m y = some (processRows t.rows m y)) ∧
    (6 < t.ncols → t.rows ≠ [] →
      normalizeDoc [t] m y =
        some (processRows (t.rows.map (fun r => r.take 6)) m y)) ∧
    (t.ncols < 6 → normalizeDoc [t] m y = none) := by
  have hfind : [t].find? (fun u => decide (5 ≤ u.ncols)) = some t :=
    List.find?_cons_of_pos _ (decide_eq_true h5)
  have hemp : ∀ hne : t.rows ≠ [], t.rows.isEmpty = false := by
    intro hne
    cases hr : t.rows with
    | nil => exact absurd hr hne
    | cons a as => simp [hr]
  refine ⟨fun h6 hne => ?_, fun hgt hne => ?_, fun hlt => ?_⟩
  · unfold normalizeDoc
    rw [hfind]
    simp [hemp hne, h6]
  · unfold normalizeDoc
    rw [hfind]
    have hne6 : ¬t.ncols = 6 := by omega
    simp [hemp hne, hne6, hgt]
  · unfold normalizeDoc
    rw [hfind]
    have hne6 : ¬t.ncols = 6 := by omega
    have hngt : ¬6 < t.ncols := by omega
    by_cases he : t.rows.isEmpty <;> simp [he, hne6, hngt]

/-- C3 witness: the column-reconciliation law at the 6-column fixture. -/
theorem c3_witness :
    (tGood.ncols = 6 → tGood.rows ≠ [] →
      normalizeDoc [tGood] "May" 2024 = some (processRows tGood.rows "May" 2024)) ∧
    (6 < tGood.ncols → tGood.rows ≠ [] →
      normalizeDoc [tGood] "May" 2024 =
        some (processRows (tGood.rows.map (fun r => r.take 6)) "May" 2024)) ∧
    (tGood.ncols < 6 → normalizeDoc [tGood] "May" 2024 = none) :=
  c3_column_reconciliation tGood "May" 2024 (by decide)

/-! ### C4 -/

theorem find?_wide_append :
    ∀ (pre : List RawTable), (∀ u ∈ pre, u.ncols < 5) →
    ∀ (t : RawTable) (post : List RawTable), 5 ≤ t.ncols →
    (pre ++ t :: post).find? (fun u => decide (5 ≤ u.ncols)) = some t
  | [], _, t, post, ht => List.find?_cons_of_pos _ (decide_eq_true ht)
  | a :: as, hpre, t, post, ht => by
      rw [List.cons_append, List.find?_cons_of_neg]
      · exact find?_wide_append as
          (fun u hu => hpre u (List.mem_cons_of_mem a hu)) t post ht
      · have ha := hpre a (List.mem_cons_self a as)
        simp only [decide_eq_true_eq]
        omega

/-- C4: normalization selects the first parsed table with at least 5
columns — narrower tables ahead of it are ignored and a trailing rest is
never consulted — and when no table is that wide the result is Empty. -/
theorem c4_first_wide_table (pre post : List RawTable) (t : RawTable)
    (m : String) (y : Nat) (hpre : ∀ u ∈ pre, u.ncols < 5)
    (ht : 5 ≤ t.ncols) :
    normalizeDoc (pre ++ t :: post) m y = normalizeDoc [t] m y ∧
    (∀ ts : List RawTable, (∀ u ∈ ts, u.ncols < 5) →
      normalizeDoc ts m y = none) := by
  constructor
  · have h1 := find?_wide_append pre hpre t post ht
    have h2 : [t].find? (fun u => decide (5 ≤ u.ncols)) = some t :=
      List.find?_cons_of_pos _ (decide_eq_true ht)
    unfold normalizeDoc
    rw [h1, h2]
  · intro ts hts
    have hn : ts.find? (fun u => decide (5 ≤ u.ncols)) = none := by
      refine List.find?_eq_none.mpr (fun u hu => ?_)
      have := hts u hu
      simp only [decide_eq_true_eq]
      omega
    unfold normalizeDoc
    rw [hn]

/-- C4 witness: a narrow table ahead of the wide fixture is skipped. -/
theorem c4_witness :
    normalizeDoc [tNarrow, tGood] "June" 2024 = normalizeDoc [tGood] "June" 2024 ∧
    (∀ ts : List RawTable, (∀ u ∈ ts, u.ncols < 5) →
      normalizeDoc ts "June" 2024 = none) :=
  c4_first_wide_table [tNarrow] [] tGood "June" 2024 (by decide) (by decide)

/-! ### C7 -/

/-- C7: a monthly fetch hitting HTTP 404 is routed to the front-page
fallback; any other HTTP status error and any transport error yield
`None`; and a month whose scrape yields `None` is recorded in the failed
list, the loop continuing (the step function is total). -/
theorem c7_error_classification (e : Env) (year : Nat) (m : String) :
    (e.monthly m = .httpError 404 →
      scrape_phivolcs_data_from_html e year m =
        scrape_current_month_from_main_page e) ∧
    (∀ s : Nat, s ≠ 404 → e.monthly m = .httpError s →
      scrape_phivolcs_data_from_html e year m = none) ∧
    (e.monthly m = .netError →
      scrape_phivolcs_data_from_html e year m = none) ∧
    (∀ st : YearRun, st.currentMonthFound = false →
      scrape_phivolcs_data_from_html e year m = none →
      m ∈ (stepMonth e year st m).failed) := by
  refine ⟨fun h => ?_, fun s hs h => ?_, fun h => ?_, fun st hst hnone => ?_⟩
  · unfold scrape_phivolcs_data_from_html
    rw [h]
    simp
  · unfold scrape_phivolcs_data_from_html
    rw [h]
    simp [hs]
  · unfold scrape_phivolcs_data_from_html
    rw [h]
  · unfold stepMonth
    rw [hst]
    simp only [Bool.false_eq_true, if_false]
    unfold stepWith
    rw [hnone]
    simp

/-- C7 witness: classification at the mixed fixture environment. -/
theorem c7_witness :
    (envMixed.monthly "May" = .httpError 404 →
      scrape_phivolcs_data_from_html envMixed 2023 "May" =
        scrape_current_month_from_main_page envMixed) ∧
    (∀ s : Nat, s ≠ 404 → envMixed.monthly "May" = .httpError s →
      scrape_phivolcs_data_from_html envMixed 2023 "May" = none) ∧
    (envMixed.monthly "May" = .netError →
      scrape_phivolcs_data_from_html envMixed 2023 "May" = none) ∧
    (∀ st : YearRun, st.currentMonthFound = false →
      scrape_phivolcs_data_from_html envMixed 2023 "May" = none →
      "May" ∈ (stepMonth envMixed 2023 st "May").failed) :=
  c7_error_classification envMixed 2023 "May"

/-! ### C8 -/

/-- C8 counterexample: scraping year 2023 against a 2024 clock, January
404s and the front-page fallback succeeds, yet February is still fetched
and recorded successful — the orchestrator did not enter
`SKIP_REMAINDER` after the `NotFound`. -/
theorem c8_counterexample :
    envC8.monthly "January" = FetchOutcome.httpError 404 ∧
    "February" ∈ (runYearMonths envC8 2023).successful ∧
    "February" ∉ (runYearMonths envC8 2023).failed := by decide

/-- C8 (amended): a 404 replaces the monthly page by the front-page
scrape, and once `currentMonthFound` holds every later month is marked
failed without any fetch; but after a `NotFound` the flag is raised only
when the year is the current calendar year and — if the fallback
produced rows — the month is the current month name. -/
theorem c8_skip_machine (e : Env) (year : Nat) :
    (∀ (st : YearRun) (m : String), st.currentMonthFound = true →
      stepMonth e year st m = { st with failed := st.failed ++ [m] }) ∧
    (∀ m : String, e.monthly m = .httpError 404 →
      scrape_phivolcs_data_from_html e year m =
        scrape_current_month_from_main_page e) ∧
    (∀ (st : YearRun) (m : String), st.currentMonthFound = false →
      e.monthly m = .httpError 404 →
      ((stepMonth e year st m).currentMonthFound = true ↔
        (year = e.curYear ∧
          (dfNonempty (scrape_current_month_from_main_page e) = true →
            m = e.curMonth)))) := by
  refine ⟨fun st m h => ?_, fun m h => ?_, fun st m hst h404 => ?_⟩
  · unfold stepMonth
    rw [h]
    simp
  · unfold scrape_phivolcs_data_from_html
    rw [h]
    simp
  · have hdf : scrape_phivolcs_data_from_html e year m =
        scrape_current_month_from_main_page e := by
      unfold scrape_phivolcs_data_from_html
      rw [h404]
      simp
    unfold stepMonth
    rw [hst]
    simp only [Bool.false_eq_true, if_false]
    unfold stepWith
    rw [hdf]
    cases hmp : scrape_current_month_from_main_page e with
    | none =>
        simp only [dfNonempty]
        by_cases hy : year = e.curYear <;> simp [hy, hst]
    | some l =>
        cases l with
        | nil =>
            simp only [dfNonempty]
            by_cases hy : year = e.curYear <;> simp [hy, hst]
        | cons r rs =>
            simp only [dfNonempty]
            by_cases hp : year = e.curYear ∧ m = e.curMonth
            · simp [hp, hp.1, hp.2]
            · by_cases hy : year = e.curYear
              · have hm : ¬m = e.curMonth := fun hm => hp ⟨hy, hm⟩
                simp [hp, hy, hm, hst]
              · simp [hp, hy, hst]

/-- C8 witness: the amended state-machine law at the C8 environment. -/
theorem c8_witness :
    (∀ (st : YearRun) (m : String), st.currentMonthFound = true →
      stepMonth envC8 2023 st m = { st with failed := st.failed ++ [m] }) ∧
    (∀ m : String, envC8.monthly m = .httpError 404 →
      scrape_phivolcs_data_from_html envC8 2023 m =
        scrape_current_month_from_main_page envC8) ∧
    (∀ (st : YearRun) (m : String), st.currentMonthFound = false →
      envC8.monthly m = .httpError 404 →
      ((stepMonth envC8 2023 st m).currentMonthFound = true ↔
        (2023 = envC8.curYear ∧
          (dfNonempty (scrape_current_month_from_main_page envC8) = true →
            m = envC8.curMonth)))) :=
  c8_skip_machine envC8 2023

/-! ### C9 -/

/-- C9 counterexample: in the C9 environment one month succeeds but its
only record is removed by the Null-Island filter, so the year's dataset
is empty — yet the per-year CSV is still written. -/
theorem c9_counterexample :
    (scrape_year_data envC9 2023).fileWritten = true ∧
    (scrape_year_data envC9 2023).output = some ([] : List CleanRecord) := by
  decide

/-- C9 (amended): the per-year file is written iff at least one month
produced a non-empty normalized table — equivalently iff the year
returns a dataset at all — even when cleaning leaves that dataset with
zero rows. -/
theorem c9_file_written (e : Env) (year : Nat) :
    ((scrape_year_data e year).fileWritten = true ↔
      (runYearMonths e year).allData ≠ []) ∧
    ((scrape_year_data e year).fileWritten = true ↔
      (scrape_year_data e year).output.isSome = true) := by
  unfold scrape_year_data
  by_cases h : (runYearMonths e year).allData.isEmpty
  · have h0 : (runYearMonths e year).allData = [] := List.isEmpty_iff.mp h
    simp [h, h0]
  · have h0 : (runYearMonths e year).allData ≠ [] := by
      simpa [List.isEmpty_iff] using h
    simp [h, h0]

/-- C9 witness: the file-writing law at the C9 environment. -/
theorem c9_witness :
    ((scrape_year_data envC9 2023).fileWritten = true ↔
      (runYearMonths envC9 2023).allData ≠ []) ∧
    ((scrape_year_data envC9 2023).fileWritten = true ↔
      (scrape_year_data envC9 2023).output.isSome = true) :=
  c9_file_written envC9 2023

/-! ### C10 -/

/-- C10: every record produced through the front-page fallback (after a
monthly 404) is labeled with the system clock's current month name and
year, regardless of the year and month whose fetch 404'd. -/
theorem c10_fallback_metadata (e : Env) (tables : List RawTable)
    (year : Nat) (m : String) (recs : List Record)
    (hmp : e.mainPage = .success tables)
    (h404 : e.monthly m = .httpError 404)
    (hr : scrape_phivolcs_data_from_html e year m = some recs) :
    ∀ r ∈ recs, r.month = e.curMonth ∧ r.year = e.curYear := by
  have hdf : scrape_phivolcs_data_from_html e year m =
      scrape_current_month_from_main_page e := by
    unfold scrape_phivolcs_data_from_html
    rw [h404]
    simp
  rw [hdf] at hr
  unfold scrape_current_month_from_main_page at hr
  rw [hmp] at hr
  exact normalizeDoc_month_year tables e.curMonth e.curYear recs hr

/-- C10 witness: a March 2023 404 yields records labeled October 2024
(the fixture clock), not March 2023. -/
theorem c10_witness :
    (mkRecord "October" 2024 rowGood).month = envMixed.curMonth ∧
    (mkRecord "October" 2024 rowGood).year = envMixed.curYear :=
  c10_fallback_metadata envMixed [tGood] 2023 "March"
    [mkRecord "October" 2024 rowGood] (by decide) (by decide) (by decide)
    (mkRecord "October" 2024 rowGood) (by decide)

end Phivolcs
